import Mathlib

/-!
Verification of the HomeHero backend (Express + MongoDB document store).

This file gives a shallow embedding of the route handlers of `server.js`
(and the near-identical variants in `README.md` / `index.js`): the two
persisted collections (`services`, `bookings`) become lists of typed
records, MongoDB queries become list searches, and each handler becomes a
function from the database state and the request data to the new state and
an HTTP-level outcome.  Numbers (prices, ratings) are modelled as `Rat`,
timestamps as `Nat` ticks, Mongo `_id` values as strings (services) or
naturals (bookings, allocated by a counter in the state).
-/

deriving instance DecidableEq for Except

/-- HTTP-level error outcomes used by the handlers:
401 Unauthorized, 403 Forbidden, 404 Not Found,
400 business-rule violation (with its message), 500 internal. -/
inductive ApiError where
  | unauthorized : ApiError
  | forbidden : ApiError
  | notFound : ApiError
  | invalidOperation : String → ApiError
  | internal : ApiError
deriving Repr, DecidableEq

/-- A review embedded in a service document, as built by
`POST /services/:id/review`:
`{ userEmail, userName, rating, comment, date }`. -/
structure Review where
  userEmail : String
  userName : String
  rating : Rat
  comment : String
  date : Nat
deriving Repr, DecidableEq

/-- A service document in the `services` collection.  `sid` models the
Mongo `_id` (as a string), `updatedAt` is absent (`none`) until a PATCH
stamps it. -/
structure Service where
  sid : String
  serviceName : String
  category : String
  price : Rat
  description : String
  providerEmail : String
  createdAt : Nat
  updatedAt : Option Nat
  averageRating : Rat
  reviews : List Review
deriving Repr, DecidableEq

/-- A booking document in the `bookings` collection.  `bid` models the
Mongo `_id`, allocated by the state counter on insert. -/
structure Booking where
  bid : Nat
  serviceId : String
  userEmail : String
  status : String
  createdAt : Nat
deriving Repr, DecidableEq

/-- The persisted database state: the two collections plus the `_id`
allocator for booking inserts. -/
structure DBState where
  services : List Service
  bookings : List Booking
  nextBookingId : Nat
deriving Repr, DecidableEq

/-- `servicesCollection.findOne({ _id: new ObjectId(id) })`. -/
def findService (st : DBState) (id : String) : Option Service :=
  st.services.find? (fun s => s.sid == id)

/-- Client-supplied body of `POST /services`.  The handler overwrites
`createdAt`, `averageRating` and `reviews` no matter what the client sent,
so client-supplied rating/review data is ignored. -/
structure ServiceBody where
  serviceName : String
  category : String
  price : Rat
  description : String
  providerEmail : String
  bodyAverageRating : Option Rat
  bodyReviews : Option (List Review)
deriving Repr, DecidableEq

/-- `POST /services` (Protected): inserts the request body after stamping
`createdAt = new Date()`, `averageRating = 4.5` and `reviews = []`.
`newId` stands for the `_id` Mongo assigns to the inserted document. -/
def createService (st : DBState) (body : ServiceBody) (newId : String) (now : Nat) :
    DBState × String :=
  let s : Service :=
    { sid := newId
      serviceName := body.serviceName
      category := body.category
      price := body.price
      description := body.description
      providerEmail := body.providerEmail
      createdAt := now
      updatedAt := none
      averageRating := 4.5
      reviews := [] }
  ({ st with services := st.services ++ [s] }, newId)

/-- `POST /services/:id/review` (Protected).  Mirrors the handler:
1. `bookingsCollection.findOne({userEmail, serviceId, status: {$in: ["completed","pending"]}})`;
   absence gives 403.
2. `servicesCollection.findOne({_id})`; a missing service makes the JS read
   `service.reviews` of `null` throw, caught as a 500.
3. duplicate-review check over the embedded list gives 400.
4. `findOneAndUpdate` pushes the review (returnDocument "after"), then,
   when the updated list is nonempty, a second `updateOne` stores
   `averageRating = totalRating / reviews.length` recomputed over the full
   updated list. -/
def recomputedAverage (reviews : List Review) (fallback : Rat) : Rat :=
  if reviews.length > 0 then
    (reviews.map (fun r => r.rating)).sum / (reviews.length : Rat)
  else fallback

/-- The write applied to the matched service document: `$push` the review
and `$set` the recomputed average (documents with another `_id` are
untouched). -/
def pushReviewUpdate (serviceId : String) (updatedReviews : List Review)
    (newAvg : Rat) (s : Service) : Service :=
  if s.sid == serviceId then
    { s with reviews := updatedReviews, averageRating := newAvg }
  else s

def addReview (st : DBState) (decodedEmail serviceId : String) (rating : Rat)
    (userName : Option String) (comment : String) (now : Nat) :
    DBState × Except ApiError Unit :=
  match st.bookings.find? (fun b =>
      b.userEmail == decodedEmail && b.serviceId == serviceId &&
        (b.status == "completed" || b.status == "pending")) with
  | none => (st, .error .forbidden)
  | some _ =>
    match findService st serviceId with
    | none => (st, .error .internal)
    | some service =>
      if service.reviews.any (fun r => r.userEmail == decodedEmail) then
        (st, .error (.invalidOperation "You have already reviewed this service"))
      else
        let review : Review :=
          { userEmail := decodedEmail
            userName := userName.getD "Anonymous"
            rating := rating
            comment := comment
            date := now }
        let updatedReviews := service.reviews ++ [review]
        let newAvg := recomputedAverage updatedReviews service.averageRating
        ({ st with services :=
            st.services.map (pushReviewUpdate serviceId updatedReviews newAvg) },
         .ok ())

/-- Client-supplied body of `POST /bookings`.  The handler reads
`booking.serviceId` and `booking.userEmail` from the body and never
consults `req.decoded`; it then overwrites `createdAt` and `status`. -/
structure BookingBody where
  serviceId : String
  userEmail : String
deriving Repr, DecidableEq

/-- `POST /bookings` (Protected).  Mirrors the handler:
1. `servicesCollection.findOne({_id: booking.serviceId})`; a missing
   service makes the JS read `service.providerEmail` of `null` throw,
   caught as a 500.
2. self-booking check: `service.providerEmail === booking.userEmail`
   gives 400.
3. duplicate check: `bookingsCollection.findOne({userEmail, serviceId,
   status: {$ne: "cancelled"}})`; a hit gives 400.
4. otherwise insert with `status = "pending"`, `createdAt = new Date()`,
   returning the inserted `_id`.
`decodedEmail` is the identity the JWT middleware decoded; the handler
never uses it. -/
def createBooking (st : DBState) (decodedEmail : String) (body : BookingBody)
    (now : Nat) : DBState × Except ApiError Nat :=
  match findService st body.serviceId with
  | none => (st, .error .internal)
  | some service =>
    if service.providerEmail == body.userEmail then
      (st, .error (.invalidOperation "You cannot book your own service"))
    else
      match st.bookings.find? (fun b =>
          b.userEmail == body.userEmail && b.serviceId == body.serviceId &&
            b.status != "cancelled") with
      | some _ => (st, .error (.invalidOperation "You have already booked this service"))
      | none =>
        let nb : Booking :=
          { bid := st.nextBookingId
            serviceId := body.serviceId
            userEmail := body.userEmail
            status := "pending"
            createdAt := now }
        ({ st with bookings := st.bookings ++ [nb],
                   nextBookingId := st.nextBookingId + 1 },
         .ok st.nextBookingId)

/-- The patch payload of `PATCH /services/:id` over the typed service
schema: `some` marks a field supplied by the client (which `$set`
overwrites), `none` a field left out of the payload. -/
structure ServicePatch where
  serviceName : Option String
  category : Option String
  price : Option Rat
  description : Option String
  providerEmail : Option String
  averageRating : Option Rat
  reviews : Option (List Review)
deriving Repr, DecidableEq

/-- The mutation of `PATCH /services/:id` on the matched document:
`delete updateData._id` (the identifier is never patched),
`updateData.updatedAt = new Date()`, then `$set: updateData` — a partial
merge where only supplied fields change. -/
def applyPatch (s : Service) (p : ServicePatch) (now : Nat) : Service :=
  { s with
    serviceName := p.serviceName.getD s.serviceName
    category := p.category.getD s.category
    price := p.price.getD s.price
    description := p.description.getD s.description
    providerEmail := p.providerEmail.getD s.providerEmail
    averageRating := p.averageRating.getD s.averageRating
    reviews := p.reviews.getD s.reviews
    updatedAt := some now }

/-- `PATCH /services/:id` (Protected).  The ownership gate is
`if (!service || service.providerEmail !== email)` where `email` is the
`?email=` query parameter; `req.decoded.email` is never compared.
`decodedEmail` is carried to make that observable. -/
def updateService (st : DBState) (decodedEmail id queryEmail : String)
    (p : ServicePatch) (now : Nat) : DBState × Except ApiError Unit :=
  match findService st id with
  | none => (st, .error .forbidden)
  | some service =>
    if service.providerEmail != queryEmail then (st, .error .forbidden)
    else
      ({ st with services := st.services.map (fun s =>
          if s.sid == id then applyPatch s p now else s) },
       .ok ())

/-- The store writes `DELETE /services/:id` performs, in program order. -/
inductive StoreEffect where
  | deleteBookingsFor : String → StoreEffect
  | deleteServiceRec : String → StoreEffect
deriving Repr, DecidableEq

/-- `DELETE /services/:id` (Protected).  Same ownership gate as the PATCH
handler (query-parameter email against `service.providerEmail`); on
success it first runs `bookingsCollection.deleteMany({serviceId: id})`,
then `servicesCollection.deleteOne({_id})`.  The effect trace records
that order. -/
def deleteService (st : DBState) (decodedEmail id queryEmail : String) :
    DBState × Except ApiError Unit × List StoreEffect :=
  match findService st id with
  | none => (st, .error .forbidden, [])
  | some service =>
    if service.providerEmail != queryEmail then (st, .error .forbidden, [])
    else
      let st1 := { st with bookings := st.bookings.filter (fun b => b.serviceId != id) }
      let st2 := { st1 with services := st1.services.filter (fun s => s.sid != id) }
      (st2, .ok (), [.deleteBookingsFor id, .deleteServiceRec id])

/-- Case-insensitive substring test used to model the
`{$regex: search, $options: "i"}` filters (for metacharacter-free search
strings a Mongo regex match is a substring match). -/
def substrAt : List Char → List Char → Bool
  | pat, [] => pat.isEmpty
  | pat, c :: rest => pat.isPrefixOf (c :: rest) || substrAt pat rest

/-- Case-insensitive containment on strings. -/
def containsCI (text pat : String) : Bool :=
  substrAt pat.toLower.toList text.toLower.toList

/-- Query string of `GET /services`: absent parameters are `none`
(absence or JS-falsiness means "no constraint"). -/
structure ServicesQuery where
  limit : Option Nat
  category : Option String
  minPrice : Option Rat
  maxPrice : Option Rat
  search : Option String
  sortBy : Option String
deriving Repr, DecidableEq

/-- The filter document `GET /services` builds: exact category (unless
the literal "all"), inclusive price bounds, and a case-insensitive
search across serviceName/category/description joined by `$or`. -/
def matchesQuery (q : ServicesQuery) (s : Service) : Bool :=
  (match q.category with
   | some c => if c != "all" then s.category == c else true
   | none => true) &&
  (match q.minPrice with
   | some m => decide (m ≤ s.price)
   | none => true) &&
  (match q.maxPrice with
   | some m => decide (s.price ≤ m)
   | none => true) &&
  (match q.search with
   | some w => containsCI s.serviceName w || containsCI s.category w ||
       containsCI s.description w
   | none => true)

instance : DecidableRel (fun a b : Service => a.price ≤ b.price) :=
  fun a b => inferInstanceAs (Decidable (a.price ≤ b.price))

instance : DecidableRel (fun a b : Service => b.price ≤ a.price) :=
  fun a b => inferInstanceAs (Decidable (b.price ≤ a.price))

instance : DecidableRel (fun a b : Service => b.averageRating ≤ a.averageRating) :=
  fun a b => inferInstanceAs (Decidable (b.averageRating ≤ a.averageRating))

/-- `GET /services`: filter, then sort — the handler's branches are
`sortBy === "price-asc"`, `sortBy === "price-desc"` and
`sortBy === "rating"` (any other selector, including "rating-desc",
matches no branch and applies no ordering) — then `limit`.  The store's
sort is modelled by insertion sort on the same key. -/
def listServices (st : DBState) (q : ServicesQuery) : List Service :=
  let filtered := st.services.filter (matchesQuery q)
  let sorted :=
    if q.sortBy == some "price-asc" then
      filtered.insertionSort (fun a b => a.price ≤ b.price)
    else if q.sortBy == some "price-desc" then
      filtered.insertionSort (fun a b => b.price ≤ a.price)
    else if q.sortBy == some "rating" then
      filtered.insertionSort (fun a b => b.averageRating ≤ a.averageRating)
    else filtered
  match q.limit with
  | some n => sorted.take n
  | none => sorted

/-!
Document-level model of the PATCH merge.  The typed `updateService` above
fixes the service schema; to state the frame property of `$set` over
arbitrary client-supplied keys, the same handler mutation is also embedded
over raw documents: a document is an association list of string keys to
values, `$set` overwrites exactly the payload's keys.
-/

/-- A BSON-ish scalar value. -/
inductive DVal where
  | str : String → DVal
  | num : Rat → DVal
  | boolean : Bool → DVal
  | date : Nat → DVal
deriving Repr, DecidableEq

/-- A raw document: ordered key/value pairs (JS objects have unique keys;
theorems that need that take it as a hypothesis). -/
abbrev Doc := List (String × DVal)

/-- Set one field: overwrite in place when the key exists, else append —
the effect of `$set` for a single key. -/
def setKey : Doc → String → DVal → Doc
  | [], k, v => [(k, v)]
  | (k1, v1) :: rest, k, v =>
    if k1 = k then (k, v) :: rest else (k1, v1) :: setKey rest k v

/-- `delete payload[k]` on a JS object (unique keys): drop the binding. -/
def eraseKey (d : Doc) (k : String) : Doc :=
  d.filter (fun kv => kv.1 != k)

/-- `$set: payload`: set every key of the payload. -/
def applySet (d : Doc) (payload : Doc) : Doc :=
  payload.foldl (fun acc kv => setKey acc kv.1 kv.2) d

/-- The payload the PATCH handler actually applies:
`delete updateData._id; updateData.updatedAt = new Date()`. -/
def patchPayload (payload : Doc) (now : Nat) : Doc :=
  setKey (eraseKey payload "_id") "updatedAt" (.date now)

/-- `PATCH /services/:id` over raw documents: same ownership gate
(query-parameter email against the stored `providerEmail`), then
`updateOne({_id}, {$set: updateData})` on the matched document. -/
def docUpdateService (docs : List Doc) (decodedEmail id queryEmail : String)
    (payload : Doc) (now : Nat) : List Doc × Except ApiError Unit :=
  match docs.find? (fun d => decide (d.lookup "_id" = some (DVal.str id))) with
  | none => (docs, .error .forbidden)
  | some d =>
    if d.lookup "providerEmail" ≠ some (DVal.str queryEmail) then
      (docs, .error .forbidden)
    else
      (docs.map (fun d =>
        if d.lookup "_id" = some (DVal.str id) then
          applySet d (patchPayload payload now)
        else d),
       .ok ())

/-- Searching for a service id commutes with a map that preserves ids. -/
lemma findService_map (st : DBState) (sid : String) (g : Service → Service)
    (hg : ∀ s, (g s).sid = s.sid) :
    findService { st with services := st.services.map g } sid =
      Option.map g (findService st sid) := by
  unfold findService
  simp only [List.find?_map]
  have hfun : ((fun s : Service => s.sid == sid) ∘ g) =
      (fun s : Service => s.sid == sid) := by
    funext s
    simp [Function.comp, hg]
  rw [hfun]

/-- A found service satisfies the search predicate. -/
lemma findService_sid {st : DBState} {sid : String} {s : Service}
    (h : findService st sid = some s) : s.sid = sid := by
  unfold findService at h
  have := List.find?_some h
  simpa using this

/-- A found service is a member of the collection. -/
lemma findService_mem {st : DBState} {sid : String} {s : Service}
    (h : findService st sid = some s) : s ∈ st.services :=
  List.mem_of_find?_eq_some h

/-- C1.  After every successful add-review, the target service's
`averageRating` equals the arithmetic mean of the ratings of the full
updated embedded review list (which is nonempty); and a freshly created
service carries zero reviews and `averageRating = 4.5`. -/
theorem addReview_mean_createService_default :
    (∀ (st : DBState) (de sid : String) (rating : Rat) (un : Option String)
        (c : String) (now : Nat),
      (addReview st de sid rating un c now).2 = .ok () →
      ∃ s2, findService (addReview st de sid rating un c now).1 sid = some s2 ∧
        s2.reviews ≠ [] ∧
        s2.averageRating =
          (s2.reviews.map (fun r => r.rating)).sum / (s2.reviews.length : Rat)) ∧
    (∀ (st : DBState) (body : ServiceBody) (newId : String) (now : Nat),
      ∃ s, (createService st body newId now).1.services = st.services ++ [s] ∧
        s.reviews = [] ∧ s.averageRating = 4.5) := by
  constructor
  · intro st de sid rating un c now h
    unfold addReview at h ⊢
    cases hb : st.bookings.find? (fun b =>
        b.userEmail == de && b.serviceId == sid &&
          (b.status == "completed" || b.status == "pending")) with
    | none => simp [hb] at h
    | some b0 =>
      simp only [hb] at h ⊢
      cases hsvc : findService st sid with
      | none => simp [hsvc] at h
      | some svc =>
        simp only [hsvc] at h ⊢
        by_cases hrev : svc.reviews.any (fun r => r.userEmail == de) = true
        · simp [hrev] at h
        · rw [Bool.not_eq_true] at hrev
          simp only [hrev, Bool.false_eq_true, if_false] at h ⊢
          have hsid : (svc.sid == sid) = true := by
            simp [findService_sid hsvc]
          refine ⟨pushReviewUpdate sid
              (svc.reviews ++ [{ userEmail := de, userName := un.getD "Anonymous",
                                 rating := rating, comment := c, date := now }])
              (recomputedAverage
                (svc.reviews ++ [{ userEmail := de, userName := un.getD "Anonymous",
                                   rating := rating, comment := c, date := now }])
                svc.averageRating) svc, ?_, ?_, ?_⟩
          · rw [findService_map st sid _ (fun s => by
              unfold pushReviewUpdate
              split <;> rfl)]
            rw [hsvc]
            rfl
          · simp [pushReviewUpdate, hsid]
          · simp only [pushReviewUpdate, hsid, if_true]
            unfold recomputedAverage
            rw [if_pos (by simp)]
  · intro st body newId now
    exact ⟨_, rfl, rfl, rfl⟩

/-- Concrete fixture: one listed service. -/
def exService : Service :=
  { sid := "s1", serviceName := "Cleaning", category := "home", price := 30,
    description := "weekly cleaning", providerEmail := "p@x.com", createdAt := 0,
    updatedAt := none, averageRating := 4.5, reviews := [] }

/-- Concrete fixture: a pending booking of `exService` by a customer. -/
def exBooking : Booking :=
  { bid := 0, serviceId := "s1", userEmail := "c@x.com", status := "pending",
    createdAt := 1 }

/-- Concrete fixture: the store holding `exService` and `exBooking`. -/
def exState : DBState :=
  { services := [exService], bookings := [exBooking], nextBookingId := 1 }

/-- Concrete fixture: a create-service request body. -/
def exBody : ServiceBody :=
  { serviceName := "Plumbing", category := "repair", price := 20,
    description := "pipes", providerEmail := "q@x.com",
    bodyAverageRating := some 1, bodyReviews := none }

/-- Witness for C1 at the concrete fixture. -/
theorem addReview_mean_createService_default_witness :
    (∃ s2, findService (addReview exState "c@x.com" "s1" 5 none "great" 7).1 "s1" =
        some s2 ∧ s2.reviews ≠ [] ∧
        s2.averageRating =
          (s2.reviews.map (fun r => r.rating)).sum / (s2.reviews.length : Rat)) ∧
    (∃ s, (createService exState exBody "s9" 3).1.services = exState.services ++ [s] ∧
      s.reviews = [] ∧ s.averageRating = 4.5) :=
  ⟨addReview_mean_createService_default.1 exState "c@x.com" "s1" 5 none "great" 7
      (by decide),
   addReview_mean_createService_default.2 exState exBody "s9" 3⟩

/-- C4.  A create-booking request whose referenced service is owned by the
requesting customer email fails with the business-rule error and leaves
the store unchanged (no booking inserted). -/
theorem createBooking_self_booking_rejected (st : DBState) (de : String)
    (body : BookingBody) (now : Nat) (svc : Service)
    (hs : findService st body.serviceId = some svc)
    (heq : svc.providerEmail = body.userEmail) :
    createBooking st de body now =
      (st, .error (.invalidOperation "You cannot book your own service")) := by
  unfold createBooking
  rw [hs]
  simp [heq]

/-- Witness for C4: the provider tries to book their own service. -/
theorem createBooking_self_booking_rejected_witness :
    createBooking exState "p@x.com" { serviceId := "s1", userEmail := "p@x.com" } 5 =
      (exState, .error (.invalidOperation "You cannot book your own service")) :=
  createBooking_self_booking_rejected exState "p@x.com"
    { serviceId := "s1", userEmail := "p@x.com" } 5 exService (by rfl) (by decide)

/-- C3.  For a create-booking request that reaches the duplicate check
(the referenced service exists and is not the requester's own): a prior
non-cancelled booking with the same customer email and service id makes
the request fail with the business-rule error and leaves the store
unchanged; with no such prior booking, a booking with status "pending"
and the current timestamp is appended and its fresh identity returned. -/
theorem createBooking_duplicate_check (st : DBState) (de : String)
    (body : BookingBody) (now : Nat) (svc : Service)
    (hs : findService st body.serviceId = some svc)
    (hns : svc.providerEmail ≠ body.userEmail) :
    ((∃ b ∈ st.bookings, b.userEmail = body.userEmail ∧
        b.serviceId = body.serviceId ∧ b.status ≠ "cancelled") →
      createBooking st de body now =
        (st, .error (.invalidOperation "You have already booked this service"))) ∧
    ((∀ b ∈ st.bookings, ¬(b.userEmail = body.userEmail ∧
        b.serviceId = body.serviceId ∧ b.status ≠ "cancelled")) →
      createBooking st de body now =
        ({ st with
            bookings := st.bookings ++
              [{ bid := st.nextBookingId, serviceId := body.serviceId,
                 userEmail := body.userEmail, status := "pending", createdAt := now }]
            nextBookingId := st.nextBookingId + 1 },
         .ok st.nextBookingId)) := by
  have hbeq : (svc.providerEmail == body.userEmail) = false := by
    simp [hns]
  constructor
  · rintro ⟨b, hbmem, h1, h2, h3⟩
    unfold createBooking
    rw [hs]
    simp only [hbeq, Bool.false_eq_true, if_false]
    cases hf : st.bookings.find? (fun b => b.userEmail == body.userEmail &&
        b.serviceId == body.serviceId && b.status != "cancelled") with
    | none =>
      exfalso
      have := List.find?_eq_none.mp hf b hbmem
      simp [h1, h2, h3] at this
    | some b1 => rfl
  · intro hall
    unfold createBooking
    rw [hs]
    simp only [hbeq, Bool.false_eq_true, if_false]
    have hf : st.bookings.find? (fun b => b.userEmail == body.userEmail &&
        b.serviceId == body.serviceId && b.status != "cancelled") = none := by
      rw [List.find?_eq_none]
      intro b hbmem
      have := hall b hbmem
      intro hcontra
      apply this
      simpa [and_assoc] using hcontra
    rw [hf]

/-- Witness for C3 at the concrete fixture: the duplicate branch for the
customer who already booked, and the insert branch for a fresh customer. -/
theorem createBooking_duplicate_check_witness :
    (createBooking exState "c@x.com" { serviceId := "s1", userEmail := "c@x.com" } 9 =
      (exState, .error (.invalidOperation "You have already booked this service"))) ∧
    (createBooking exState "d@x.com" { serviceId := "s1", userEmail := "d@x.com" } 9 =
      ({ exState with
          bookings := exState.bookings ++
            [{ bid := 1, serviceId := "s1", userEmail := "d@x.com",
               status := "pending", createdAt := 9 }]
          nextBookingId := 2 },
       .ok 1)) :=
  ⟨(createBooking_duplicate_check exState "c@x.com"
      { serviceId := "s1", userEmail := "c@x.com" } 9 exService (by rfl)
      (by decide)).1 ⟨exBooking, by decide, by decide, by decide, by decide⟩,
   (createBooking_duplicate_check exState "d@x.com"
      { serviceId := "s1", userEmail := "d@x.com" } 9 exService (by rfl)
      (by decide)).2 (by decide)⟩

/-- Concrete fixture: the customer's only booking of `exService` is
cancelled. -/
def exStateCancelled : DBState :=
  { services := [exService]
    bookings := [{ bid := 0, serviceId := "s1", userEmail := "c@x.com",
                   status := "cancelled", createdAt := 1 }]
    nextBookingId := 1 }

/-- C5.  An add-review request by a reviewer holding no booking of the
target service with status "pending" or "completed" (only cancelled
bookings, or none at all) fails with Forbidden and leaves the store — in
particular the service's review list — unchanged. -/
theorem addReview_requires_qualifying_booking (st : DBState) (de sid : String)
    (rating : Rat) (un : Option String) (c : String) (now : Nat)
    (h : ∀ b ∈ st.bookings, ¬(b.userEmail = de ∧ b.serviceId = sid ∧
        (b.status = "completed" ∨ b.status = "pending"))) :
    addReview st de sid rating un c now = (st, .error .forbidden) := by
  unfold addReview
  have hf : st.bookings.find? (fun b => b.userEmail == de && b.serviceId == sid &&
      (b.status == "completed" || b.status == "pending")) = none := by
    rw [List.find?_eq_none]
    intro b hb
    have hnb := h b hb
    intro hc
    apply hnb
    simpa [and_assoc] using hc
  rw [hf]

/-- Witness for C5: the reviewer holds only a cancelled booking. -/
theorem addReview_requires_qualifying_booking_witness :
    addReview exStateCancelled "c@x.com" "s1" 5 none "late" 9 =
      (exStateCancelled, .error .forbidden) :=
  addReview_requires_qualifying_booking exStateCancelled "c@x.com" "s1" 5 none
    "late" 9 (by decide)

/-- C6.  An add-review request that reaches the duplicate check (a
qualifying booking exists) and finds a prior review by the same decoded
email on the target service's embedded list fails with the business-rule
error and changes nothing; moreover every add-review outcome preserves
"at most one review per reviewer email" on every service's review list. -/
theorem addReview_one_review_per_email :
    (∀ (st : DBState) (de sid : String) (rating : Rat) (un : Option String)
        (c : String) (now : Nat) (svc : Service),
      (∃ b ∈ st.bookings, b.userEmail = de ∧ b.serviceId = sid ∧
          (b.status = "completed" ∨ b.status = "pending")) →
      findService st sid = some svc →
      (∃ r ∈ svc.reviews, r.userEmail = de) →
      addReview st de sid rating un c now =
        (st, .error (.invalidOperation "You have already reviewed this service"))) ∧
    (∀ (st : DBState) (de sid : String) (rating : Rat) (un : Option String)
        (c : String) (now : Nat),
      (∀ s ∈ st.services, (s.reviews.map (fun r => r.userEmail)).Nodup) →
      ∀ s2 ∈ (addReview st de sid rating un c now).1.services,
        (s2.reviews.map (fun r => r.userEmail)).Nodup) := by
  constructor
  · rintro st de sid rating un c now svc ⟨b, hb, hb1, hb2, hb3⟩ hsvc ⟨r, hr, hrde⟩
    unfold addReview
    cases hf : st.bookings.find? (fun b => b.userEmail == de && b.serviceId == sid &&
        (b.status == "completed" || b.status == "pending")) with
    | none =>
      exfalso
      have := List.find?_eq_none.mp hf b hb
      simp [hb1, hb2] at this
      rcases hb3 with h3 | h3 <;> simp [h3] at this
    | some b0 =>
      rw [hsvc]
      have hany : svc.reviews.any (fun r => r.userEmail == de) = true := by
        rw [List.any_eq_true]
        exact ⟨r, hr, by simp [hrde]⟩
      simp [hany]
  · intro st de sid rating un c now hnd s2 hs2
    revert hs2
    unfold addReview
    cases hf : st.bookings.find? (fun b => b.userEmail == de && b.serviceId == sid &&
        (b.status == "completed" || b.status == "pending")) with
    | none => exact fun hs2 => hnd s2 hs2
    | some b0 =>
      cases hsvc : findService st sid with
      | none => exact fun hs2 => hnd s2 hs2
      | some svc =>
        by_cases hrev : svc.reviews.any (fun r => r.userEmail == de) = true
        · simp only [hrev, if_true]
          exact fun hs2 => hnd s2 hs2
        · rw [Bool.not_eq_true] at hrev
          simp only [hrev, Bool.false_eq_true, if_false]
          intro hs2
          simp only [List.mem_map] at hs2
          obtain ⟨s, hs, rfl⟩ := hs2
          unfold pushReviewUpdate
          by_cases hsid : (s.sid == sid) = true
          · simp only [hsid, if_true]
            have hde : de ∉ svc.reviews.map (fun r => r.userEmail) := by
              rw [List.any_eq_false] at hrev
              simp only [List.mem_map]
              rintro ⟨r, hr, hrde⟩
              have hfr := hrev r hr
              simp [hrde] at hfr
            have hsvcnd := hnd svc (findService_mem hsvc)
            simp only [List.map_append, List.map_cons, List.map_nil]
            rw [List.nodup_append]
            refine ⟨hsvcnd, List.nodup_singleton _, ?_⟩
            intro a ha hmem
            simp only [List.mem_singleton] at hmem
            subst hmem
            exact hde ha
          · simp only [hsid, Bool.false_eq_true, if_false]
            exact hnd s hs

/-- Concrete fixture: `exService` already reviewed by the customer, who
still holds the pending booking. -/
def exStateReviewed : DBState :=
  { services := [{ exService with
      reviews := [{ userEmail := "c@x.com", userName := "C", rating := 5,
                    comment := "ok", date := 2 }] }]
    bookings := [exBooking]
    nextBookingId := 1 }

/-- Witness for C6 at the concrete fixtures. -/
theorem addReview_one_review_per_email_witness :
    (addReview exStateReviewed "c@x.com" "s1" 4 none "again" 9 =
      (exStateReviewed,
       .error (.invalidOperation "You have already reviewed this service"))) ∧
    (∀ s2 ∈ (addReview exState "c@x.com" "s1" 5 none "great" 7).1.services,
      (s2.reviews.map (fun r => r.userEmail)).Nodup) :=
  ⟨addReview_one_review_per_email.1 exStateReviewed "c@x.com" "s1" 4 none "again" 9
      { exService with
        reviews := [{ userEmail := "c@x.com", userName := "C", rating := 5,
                      comment := "ok", date := 2 }] }
      ⟨exBooking, by decide, by decide, by decide, by decide⟩ (by rfl)
      ⟨{ userEmail := "c@x.com", userName := "C", rating := 5, comment := "ok",
         date := 2 }, by decide, by decide⟩,
   addReview_one_review_per_email.2 exState "c@x.com" "s1" 5 none "great" 7
      (by decide)⟩

/-- A patch payload supplying no field. -/
def emptyPatch : ServicePatch :=
  { serviceName := none, category := none, price := none, description := none,
    providerEmail := none, averageRating := none, reviews := none }

/-- C2 counterexample.  A caller whose decoded token email differs from
the stored provider email still gets through the ownership gate of both
the update and the delete handler by supplying the provider's email as
the `?email=` query parameter: the gate never consults the decoded
identity, contradicting the claim that such requests fail with
Forbidden. -/
theorem ownership_gate_ignores_decoded_email_cex :
    (updateService exState "mallory@evil.com" "s1" "p@x.com" emptyPatch 5).2 =
        .ok () ∧
    (deleteService exState "mallory@evil.com" "s1" "p@x.com").2.1 = .ok () ∧
    "mallory@evil.com" ≠ "p@x.com" ∧
    (findService exState "s1").map (fun s => s.providerEmail) = some "p@x.com" :=
  ⟨rfl, rfl, by decide, rfl⟩

/-- C2 amended.  Service update and delete fail with Forbidden exactly
when the target service does not exist or the caller-supplied `?email=`
query parameter differs from the stored provider email; the decoded token
identity is never consulted (identical outcomes for any two decoded
emails). -/
theorem ownership_gate_query_email :
    (∀ (st : DBState) (de id qe : String) (p : ServicePatch) (now : Nat),
      ((updateService st de id qe p now).2 = .error .forbidden ↔
        findService st id = none ∨
          ∃ svc, findService st id = some svc ∧ svc.providerEmail ≠ qe) ∧
      (∀ d2 : String, updateService st de id qe p now =
        updateService st d2 id qe p now)) ∧
    (∀ (st : DBState) (de id qe : String),
      ((deleteService st de id qe).2.1 = .error .forbidden ↔
        findService st id = none ∨
          ∃ svc, findService st id = some svc ∧ svc.providerEmail ≠ qe) ∧
      (∀ d2 : String, deleteService st de id qe = deleteService st d2 id qe)) := by
  constructor
  · intro st de id qe p now
    refine ⟨?_, fun d2 => rfl⟩
    unfold updateService
    cases hsvc : findService st id with
    | none => simp
    | some svc =>
      by_cases hq : (svc.providerEmail != qe) = true
      · simp only [hq, if_true]
        have : svc.providerEmail ≠ qe := by simpa using hq
        simp [this]
      · rw [Bool.not_eq_true, bne_eq_false_iff_eq] at hq
        simp [hq]
  · intro st de id qe
    refine ⟨?_, fun d2 => rfl⟩
    unfold deleteService
    cases hsvc : findService st id with
    | none => simp
    | some svc =>
      by_cases hq : (svc.providerEmail != qe) = true
      · simp only [hq, if_true]
        have : svc.providerEmail ≠ qe := by simpa using hq
        simp [this]
      · rw [Bool.not_eq_true, bne_eq_false_iff_eq] at hq
        simp [hq]

/-- Witness for the amended C2: Forbidden is returned when the query
email is not the provider's, for update and delete alike. -/
theorem ownership_gate_query_email_witness :
    (updateService exState "p@x.com" "s1" "other@x.com" emptyPatch 5).2 =
        .error .forbidden ∧
    (deleteService exState "p@x.com" "s1" "other@x.com").2.1 = .error .forbidden :=
  ⟨(ownership_gate_query_email.1 exState "p@x.com" "s1" "other@x.com"
      emptyPatch 5).1.mpr (Or.inr ⟨exService, by rfl, by decide⟩),
   (ownership_gate_query_email.2 exState "p@x.com" "s1" "other@x.com").1.mpr
     (Or.inr ⟨exService, by rfl, by decide⟩)⟩

/-- C7.  A successful service deletion removes every booking whose
service reference equals the deleted identifier (none remain), removes
the service record, and its store-effect trace performs the booking
cleanup strictly before the service removal. -/
theorem deleteService_cascades_bookings_first (st : DBState) (de id qe : String)
    (svc : Service) (hs : findService st id = some svc)
    (hq : svc.providerEmail = qe) :
    (∀ b ∈ (deleteService st de id qe).1.bookings, b.serviceId ≠ id) ∧
    findService (deleteService st de id qe).1 id = none ∧
    (deleteService st de id qe).2.2 =
      [.deleteBookingsFor id, .deleteServiceRec id] := by
  unfold deleteService
  rw [hs]
  have hbne : (svc.providerEmail != qe) = false := by simp [hq]
  simp only [hbne, Bool.false_eq_true, if_false]
  refine ⟨?_, ?_, ?_⟩
  · intro b hb
    have := (List.mem_filter.mp hb).2
    simpa using this
  · unfold findService
    rw [List.find?_eq_none]
    intro s hsmem
    have := (List.mem_filter.mp hsmem).2
    simpa using this
  · trivial

/-- Witness for C7 at the concrete fixture. -/
theorem deleteService_cascades_bookings_first_witness :
    (∀ b ∈ (deleteService exState "p@x.com" "s1" "p@x.com").1.bookings,
      b.serviceId ≠ "s1") ∧
    findService (deleteService exState "p@x.com" "s1" "p@x.com").1 "s1" = none ∧
    (deleteService exState "p@x.com" "s1" "p@x.com").2.2 =
      [.deleteBookingsFor "s1", .deleteServiceRec "s1"] :=
  deleteService_cascades_bookings_first exState "p@x.com" "s1" "p@x.com" exService
    (by rfl) (by decide)

/-- C8.  The create-booking handler never consults the decoded token
identity: any two decoded emails give identical outcomes on the same body
and store, and on success the inserted booking's customer email is taken
solely from the request body. -/
theorem createBooking_decoded_identity_irrelevant :
    (∀ (st : DBState) (d1 d2 : String) (body : BookingBody) (now : Nat),
      createBooking st d1 body now = createBooking st d2 body now) ∧
    (∀ (st : DBState) (de : String) (body : BookingBody) (now : Nat)
        (st2 : DBState) (newId : Nat),
      createBooking st de body now = (st2, .ok newId) →
      ∃ nb, st2.bookings = st.bookings ++ [nb] ∧ nb.userEmail = body.userEmail) := by
  constructor
  · intro st d1 d2 body now
    rfl
  · intro st de body now st2 newId h
    unfold createBooking at h
    cases hs : findService st body.serviceId with
    | none => simp [hs] at h
    | some svc =>
      simp only [hs] at h
      by_cases hself : (svc.providerEmail == body.userEmail) = true
      · simp [hself] at h
      · rw [Bool.not_eq_true] at hself
        simp only [hself, Bool.false_eq_true, if_false] at h
        cases hf : st.bookings.find? (fun b => b.userEmail == body.userEmail &&
            b.serviceId == body.serviceId && b.status != "cancelled") with
        | some b1 => simp [hf] at h
        | none =>
          simp only [hf] at h
          rw [Prod.mk.injEq] at h
          exact ⟨_, by rw [← h.1], rfl⟩

/-- Witness for C8's success conjunct at the concrete fixture. -/
theorem createBooking_decoded_identity_irrelevant_witness :
    ∃ nb, (createBooking exState "whoever@y.com"
        { serviceId := "s1", userEmail := "d@x.com" } 9).1.bookings =
      exState.bookings ++ [nb] ∧ nb.userEmail = "d@x.com" :=
  createBooking_decoded_identity_irrelevant.2 exState "whoever@y.com"
    { serviceId := "s1", userEmail := "d@x.com" } 9
    { exState with
        bookings := exState.bookings ++
          [{ bid := 1, serviceId := "s1", userEmail := "d@x.com",
             status := "pending", createdAt := 9 }]
        nextBookingId := 2 }
    1 (by rfl)

/-- Concrete fixture: a low-rated cheap service. -/
def exServiceLow : Service :=
  { sid := "a", serviceName := "Mowing", category := "garden", price := 10,
    description := "lawn", providerEmail := "p1@x.com", createdAt := 0,
    updatedAt := none, averageRating := 1, reviews := [] }

/-- Concrete fixture: a high-rated pricier service. -/
def exServiceHigh : Service :=
  { sid := "b", serviceName := "Wiring", category := "electric", price := 20,
    description := "cables", providerEmail := "p2@x.com", createdAt := 0,
    updatedAt := none, averageRating := 5, reviews := [] }

/-- Concrete fixture: a store whose iteration order is not rating-sorted. -/
def exStateSort : DBState :=
  { services := [exServiceLow, exServiceHigh], bookings := [], nextBookingId := 0 }

/-- Concrete fixture: a listing request with sort selector "rating-desc". -/
def exQueryRatingDesc : ServicesQuery :=
  { limit := none, category := none, minPrice := none, maxPrice := none,
    search := none, sortBy := some "rating-desc" }

/-- C9 counterexample.  With sort selector "rating-desc" the handler
matches none of its sort branches (they test "price-asc", "price-desc"
and "rating"), so the result keeps store order and is not descending by
`averageRating`. -/
theorem listServices_rating_desc_unsorted_cex :
    ¬ List.Pairwise (fun a b : Service => b.averageRating ≤ a.averageRating)
      (listServices exStateSort exQueryRatingDesc) := by
  intro h
  have : listServices exStateSort exQueryRatingDesc =
      [exServiceLow, exServiceHigh] := rfl
  rw [this] at h
  have hle : exServiceHigh.averageRating ≤ exServiceLow.averageRating :=
    (List.pairwise_cons.mp h).1 exServiceHigh (by simp)
  have : ¬ ((5 : Rat) ≤ 1) := by norm_num
  exact this hle

/-- C9 amended.  The sort selector that orders descending by
`averageRating` is "rating" (not "rating-desc"); "price-asc" and
"price-desc" order by price ascending and descending; "rating-desc"
matches no sort branch, so the filtered list is returned in store order
(possibly truncated by the result cap). -/
theorem listServices_sort_selectors :
    (∀ (st : DBState) (q : ServicesQuery), q.sortBy = some "rating" →
      List.Pairwise (fun a b : Service => b.averageRating ≤ a.averageRating)
        (listServices st q)) ∧
    (∀ (st : DBState) (q : ServicesQuery), q.sortBy = some "price-asc" →
      List.Pairwise (fun a b : Service => a.price ≤ b.price)
        (listServices st q)) ∧
    (∀ (st : DBState) (q : ServicesQuery), q.sortBy = some "price-desc" →
      List.Pairwise (fun a b : Service => b.price ≤ a.price)
        (listServices st q)) ∧
    (∀ (st : DBState) (q : ServicesQuery), q.sortBy = some "rating-desc" →
      listServices st q =
        (match q.limit with
         | some n => (st.services.filter (matchesQuery q)).take n
         | none => st.services.filter (matchesQuery q))) := by
  refine ⟨?_, ?_, ?_, ?_⟩
  · intro st q hq
    haveI : IsTotal Service (fun a b => b.averageRating ≤ a.averageRating) :=
      ⟨fun a b => le_total _ _⟩
    haveI : IsTrans Service (fun a b => b.averageRating ≤ a.averageRating) :=
      ⟨fun a b c h1 h2 => le_trans h2 h1⟩
    unfold listServices
    rw [hq]
    simp only [show ((some "rating" : Option String) == some "price-asc") = false
        from rfl,
      show ((some "rating" : Option String) == some "price-desc") = false from rfl,
      show ((some "rating" : Option String) == some "rating") = true from rfl,
      Bool.false_eq_true, if_false, if_true]
    cases q.limit with
    | none => exact List.sorted_insertionSort _ _
    | some n =>
      exact List.Pairwise.sublist (List.take_sublist _ _)
        (List.sorted_insertionSort _ _)
  · intro st q hq
    haveI : IsTotal Service (fun a b : Service => a.price ≤ b.price) :=
      ⟨fun a b => le_total _ _⟩
    haveI : IsTrans Service (fun a b : Service => a.price ≤ b.price) :=
      ⟨fun a b c h1 h2 => le_trans h1 h2⟩
    unfold listServices
    rw [hq]
    simp only [show ((some "price-asc" : Option String) == some "price-asc") = true
        from rfl, if_true]
    cases q.limit with
    | none => exact List.sorted_insertionSort _ _
    | some n =>
      exact List.Pairwise.sublist (List.take_sublist _ _)
        (List.sorted_insertionSort _ _)
  · intro st q hq
    haveI : IsTotal Service (fun a b : Service => b.price ≤ a.price) :=
      ⟨fun a b => le_total _ _⟩
    haveI : IsTrans Service (fun a b : Service => b.price ≤ a.price) :=
      ⟨fun a b c h1 h2 => le_trans h2 h1⟩
    unfold listServices
    rw [hq]
    simp only [show ((some "price-desc" : Option String) == some "price-asc") = false
        from rfl,
      show ((some "price-desc" : Option String) == some "price-desc") = true from rfl,
      Bool.false_eq_true, if_false, if_true]
    cases q.limit with
    | none => exact List.sorted_insertionSort _ _
    | some n =>
      exact List.Pairwise.sublist (List.take_sublist _ _)
        (List.sorted_insertionSort _ _)
  · intro st q hq
    unfold listServices
    rw [hq]
    simp only [show ((some "rating-desc" : Option String) == some "price-asc") = false
        from rfl,
      show ((some "rating-desc" : Option String) == some "price-desc") = false
        from rfl,
      show ((some "rating-desc" : Option String) == some "rating") = false from rfl,
      Bool.false_eq_true, if_false]

/-- Witness for the amended C9 at the concrete fixture. -/
theorem listServices_sort_selectors_witness :
    List.Pairwise (fun a b : Service => b.averageRating ≤ a.averageRating)
      (listServices exStateSort { exQueryRatingDesc with sortBy := some "rating" }) :=
  listServices_sort_selectors.1 exStateSort
    { exQueryRatingDesc with sortBy := some "rating" } (by rfl)

/-- Looking up a key absent from the association list gives `none`. -/
lemma lookup_eq_none_of_not_mem_keys (d : Doc) (k : String)
    (h : k ∉ d.map Prod.fst) : d.lookup k = none := by
  induction d with
  | nil => rfl
  | cons kv rest ih =>
    obtain ⟨k1, v1⟩ := kv
    simp only [List.map_cons, List.mem_cons, not_or] at h
    rw [List.lookup_cons]
    have hbeq : (k == k1) = false := by simp [h.1]
    rw [hbeq]
    exact ih h.2

/-- `setKey` stores the given value under the given key. -/
lemma lookup_setKey_self (d : Doc) (k : String) (v : DVal) :
    (setKey d k v).lookup k = some v := by
  induction d with
  | nil => simp [setKey, List.lookup_cons]
  | cons kv rest ih =>
    obtain ⟨k1, v1⟩ := kv
    by_cases h : k1 = k
    · subst h
      simp [setKey, List.lookup_cons]
    · rw [setKey, if_neg h, List.lookup_cons]
      have hbeq : (k == k1) = false := by
        simp only [beq_eq_false_iff_ne]
        exact fun he => h he.symm
      rw [hbeq]
      exact ih

/-- `setKey` leaves every other key's binding unchanged. -/
lemma lookup_setKey_ne (d : Doc) (k k2 : String) (v : DVal) (h : k2 ≠ k) :
    (setKey d k v).lookup k2 = d.lookup k2 := by
  induction d with
  | nil =>
    simp only [setKey, List.lookup_cons]
    have hbeq : (k2 == k) = false := by simp [h]
    rw [hbeq]
  | cons kv rest ih =>
    obtain ⟨k1, v1⟩ := kv
    by_cases h1 : k1 = k
    · subst h1
      rw [setKey, if_pos rfl, List.lookup_cons, List.lookup_cons]
      have hbeq : (k2 == k1) = false := by simp [h]
      rw [hbeq]
    · rw [setKey, if_neg h1, List.lookup_cons, List.lookup_cons]
      cases hk : (k2 == k1) with
      | true => rfl
      | false => exact ih

/-- Erasing a key removes its binding. -/
lemma lookup_eraseKey_self (d : Doc) (k : String) :
    (eraseKey d k).lookup k = none := by
  apply lookup_eq_none_of_not_mem_keys
  intro hmem
  simp only [eraseKey, List.mem_map] at hmem
  obtain ⟨kv, hkv, hfst⟩ := hmem
  have hf := (List.mem_filter.mp hkv).2
  rw [hfst] at hf
  simp at hf

/-- Erasing a key leaves every other key's binding unchanged. -/
lemma lookup_eraseKey_ne (d : Doc) (k k2 : String) (h : k2 ≠ k) :
    (eraseKey d k).lookup k2 = d.lookup k2 := by
  induction d with
  | nil => rfl
  | cons kv rest ih =>
    obtain ⟨k1, v1⟩ := kv
    by_cases h1 : k1 = k
    · subst h1
      rw [show eraseKey ((k1, v1) :: rest) k1 = eraseKey rest k1 from by
        simp [eraseKey]]
      rw [List.lookup_cons]
      have hbeq : (k2 == k1) = false := by simp [h]
      rw [hbeq]
      exact ih
    · rw [show eraseKey ((k1, v1) :: rest) k = (k1, v1) :: eraseKey rest k from by
        simp [eraseKey, h1]]
      rw [List.lookup_cons, List.lookup_cons]
      cases hk : (k2 == k1) with
      | true => rfl
      | false => exact ih

/-- `$set` leaves keys outside the payload unchanged. -/
lemma lookup_applySet_none (payload : Doc) (d : Doc) (k : String)
    (h : payload.lookup k = none) :
    (applySet d payload).lookup k = d.lookup k := by
  induction payload generalizing d with
  | nil => rfl
  | cons kv rest ih =>
    obtain ⟨k1, v1⟩ := kv
    rw [List.lookup_cons] at h
    cases hk : (k == k1) with
    | true => rw [hk] at h; exact absurd h (by simp)
    | false =>
      rw [hk] at h
      have hne : k ≠ k1 := by simpa using hk
      show (applySet (setKey d k1 v1) rest).lookup k = d.lookup k
      rw [ih (setKey d k1 v1) h, lookup_setKey_ne _ _ _ _ hne]

/-- Keys of `setKey` come from the original keys or the new key. -/
lemma mem_keys_setKey (d : Doc) (k a : String) (v : DVal)
    (h : a ∈ (setKey d k v).map Prod.fst) : a ∈ d.map Prod.fst ∨ a = k := by
  induction d with
  | nil => simpa [setKey] using h
  | cons kv rest ih =>
    obtain ⟨k1, v1⟩ := kv
    by_cases h1 : k1 = k
    · subst h1
      rw [setKey, if_pos rfl] at h
      simp only [List.map_cons, List.mem_cons] at h ⊢
      rcases h with h | h
      · exact Or.inr h
      · exact Or.inl (Or.inr h)
    · rw [setKey, if_neg h1] at h
      simp only [List.map_cons, List.mem_cons] at h ⊢
      rcases h with h | h
      · exact Or.inl (Or.inl h)
      · rcases ih h with h2 | h2
        · exact Or.inl (Or.inr h2)
        · exact Or.inr h2

/-- `setKey` keeps the keys duplicate-free. -/
lemma nodup_keys_setKey (d : Doc) (k : String) (v : DVal)
    (h : (d.map Prod.fst).Nodup) : ((setKey d k v).map Prod.fst).Nodup := by
  induction d with
  | nil => simp [setKey]
  | cons kv rest ih =>
    obtain ⟨k1, v1⟩ := kv
    simp only [List.map_cons, List.nodup_cons] at h
    by_cases h1 : k1 = k
    · subst h1
      rw [setKey, if_pos rfl]
      simp only [List.map_cons, List.nodup_cons]
      exact h
    · rw [setKey, if_neg h1]
      simp only [List.map_cons, List.nodup_cons]
      refine ⟨?_, ih h.2⟩
      intro hmem
      rcases mem_keys_setKey rest k k1 v hmem with h2 | h2
      · exact h.1 h2
      · exact h1 h2

/-- `eraseKey` keeps the keys duplicate-free. -/
lemma nodup_keys_eraseKey (d : Doc) (k : String)
    (h : (d.map Prod.fst).Nodup) : ((eraseKey d k).map Prod.fst).Nodup :=
  ((List.filter_sublist d).map Prod.fst).nodup h

/-- `$set` stores each payload binding (payload keys duplicate-free). -/
lemma lookup_applySet_some (payload : Doc) (d : Doc) (k : String) (v : DVal)
    (hnd : (payload.map Prod.fst).Nodup) (h : payload.lookup k = some v) :
    (applySet d payload).lookup k = some v := by
  induction payload generalizing d with
  | nil => exact absurd h (by simp)
  | cons kv rest ih =>
    obtain ⟨k1, v1⟩ := kv
    simp only [List.map_cons, List.nodup_cons] at hnd
    rw [List.lookup_cons] at h
    cases hk : (k == k1) with
    | true =>
      rw [hk] at h
      have hkeq : k = k1 := by simpa using hk
      have hv : v1 = v := by simpa using h
      have hrest : rest.lookup k = none := by
        apply lookup_eq_none_of_not_mem_keys
        rw [hkeq]
        exact hnd.1
      show (applySet (setKey d k1 v1) rest).lookup k = some v
      rw [lookup_applySet_none rest _ k hrest, hkeq, lookup_setKey_self, hv]
    | false =>
      rw [hk] at h
      show (applySet (setKey d k1 v1) rest).lookup k = some v
      exact ih (setKey d k1 v1) hnd.2 h

/-- C10.  Every successful document-level service update strips any
client-supplied `_id` from the patch payload (the stored identifier is
unchanged even when the payload tries to overwrite it), stamps
`updatedAt` with the update time, and merges partially: every stored key
not supplied in the payload, other than `updatedAt`, keeps its previous
binding. -/
theorem docUpdateService_partial_merge
    (docs : List Doc) (de id qe : String) (payload : Doc) (now : Nat)
    (docs2 : List Doc)
    (hkeys : (payload.map Prod.fst).Nodup)
    (h : docUpdateService docs de id qe payload now = (docs2, .ok ())) :
    ∀ d ∈ docs, d.lookup "_id" = some (DVal.str id) →
      applySet d (patchPayload payload now) ∈ docs2 ∧
      (applySet d (patchPayload payload now)).lookup "_id" = d.lookup "_id" ∧
      (applySet d (patchPayload payload now)).lookup "updatedAt" =
        some (.date now) ∧
      (∀ k, k ∉ payload.map Prod.fst → k ≠ "updatedAt" →
        (applySet d (patchPayload payload now)).lookup k = d.lookup k) := by
  intro d hd hid
  have hpid : (patchPayload payload now).lookup "_id" = none := by
    unfold patchPayload
    rw [lookup_setKey_ne _ _ _ _ (by decide)]
    exact lookup_eraseKey_self _ _
  have hpnd : ((patchPayload payload now).map Prod.fst).Nodup :=
    nodup_keys_setKey _ _ _ (nodup_keys_eraseKey _ _ hkeys)
  refine ⟨?_, ?_, ?_, ?_⟩
  · unfold docUpdateService at h
    cases hf : docs.find? (fun d =>
        decide (d.lookup "_id" = some (DVal.str id))) with
    | none => simp [hf] at h
    | some d0 =>
      simp only [hf] at h
      by_cases hqe : d0.lookup "providerEmail" ≠ some (DVal.str qe)
      · rw [if_pos hqe] at h; simp at h
      · rw [if_neg hqe] at h
        rw [Prod.mk.injEq] at h
        rw [← h.1]
        have harr : (fun d => if d.lookup "_id" = some (DVal.str id) then
            applySet d (patchPayload payload now) else d) d =
            applySet d (patchPayload payload now) := by simp [hid]
        exact harr ▸ List.mem_map_of_mem _ hd
  · exact lookup_applySet_none _ _ _ hpid
  · exact lookup_applySet_some _ _ _ _ hpnd (lookup_setKey_self _ _ _)
  · intro k hk hk2
    have hnone : (patchPayload payload now).lookup k = none := by
      unfold patchPayload
      rw [lookup_setKey_ne _ _ _ _ hk2]
      apply lookup_eq_none_of_not_mem_keys
      intro hmem
      apply hk
      simp only [eraseKey, List.mem_map] at hmem ⊢
      obtain ⟨kv, hkv, rfl⟩ := hmem
      exact ⟨kv, (List.mem_filter.mp hkv).1, rfl⟩
    exact lookup_applySet_none _ _ _ hnone

/-- Concrete fixture: a raw service document. -/
def exDoc : Doc :=
  [("_id", DVal.str "s1"), ("providerEmail", DVal.str "p@x.com"),
   ("price", DVal.num 30)]

/-- Concrete fixture: a patch payload that also tries to forge `_id`. -/
def exPayload : Doc :=
  [("price", DVal.num 40), ("_id", DVal.str "forged")]

/-- Witness for C10 at the concrete fixture. -/
theorem docUpdateService_partial_merge_witness :
    applySet exDoc (patchPayload exPayload 5) ∈
      (docUpdateService [exDoc] "mallory@evil.com" "s1" "p@x.com"
        exPayload 5).1 ∧
    (applySet exDoc (patchPayload exPayload 5)).lookup "_id" =
      exDoc.lookup "_id" ∧
    (applySet exDoc (patchPayload exPayload 5)).lookup "updatedAt" =
      some (DVal.date 5) ∧
    (applySet exDoc (patchPayload exPayload 5)).lookup "providerEmail" =
      exDoc.lookup "providerEmail" := by
  have happ := docUpdateService_partial_merge [exDoc] "mallory@evil.com" "s1"
    "p@x.com" exPayload 5 _ (by decide) rfl exDoc (by simp) rfl
  exact ⟨happ.1, happ.2.1, happ.2.2.1,
    happ.2.2.2 "providerEmail" (by decide) (by decide)⟩
